import Mathlib

/-!
Shallow embedding of the cyclone point-mass physics core:
the math64 Vector3 algebra, the physics Particle with its integrator,
the concrete force generators (gravity, drag, uplift), and the force
registry.  float64 values are modelled as real numbers; the positive
infinity sentinel returned by Mass() for infinite-mass particles is
modelled with EReal.  Mutating Go methods become pure functions that
return the updated value.
-/

namespace Cyclone

/-- The error kinds produced by Particle.Integrate in particle.go:
the "integration is not performed on infinite mass" error and the
"can not perform integration on a negative duration" error. -/
inductive PhysicsErr where
  | infiniteMass : PhysicsErr
  | nonPositiveDuration : PhysicsErr
deriving DecidableEq

noncomputable section

/-- math64.Vector3: three double-precision components X, Y, Z. -/
structure Vector3 where
  X : ℝ
  Y : ℝ
  Z : ℝ

/-- math64.NewVector3. -/
def NewVector3 (x y z : ℝ) : Vector3 := ⟨x, y, z⟩

/-- The zero value math64.Vector3\x7b\x7d. -/
def Vector3.zero : Vector3 := ⟨0, 0, 0⟩

/-- Vector3.Scale: multiply each component by k (pure form of the
in-place Go method). -/
def Vector3.scale (v : Vector3) (k : ℝ) : Vector3 :=
  ⟨v.X * k, v.Y * k, v.Z * k⟩

/-- Vector3.ScaleCopy: copy of the vector scaled by k. -/
def Vector3.scaleCopy (v : Vector3) (k : ℝ) : Vector3 :=
  ⟨v.X * k, v.Y * k, v.Z * k⟩

/-- Vector3.Add / Vector3.AddCopy: componentwise sum. -/
def Vector3.addCopy (v s : Vector3) : Vector3 :=
  ⟨v.X + s.X, v.Y + s.Y, v.Z + s.Z⟩

/-- Vector3.ScaleAdd: add the components of s to v, scaled by k. -/
def Vector3.scaleAdd (v s : Vector3) (k : ℝ) : Vector3 :=
  ⟨v.X + s.X * k, v.Y + s.Y * k, v.Z + s.Z * k⟩

/-- Vector3.lengthSquared. -/
def Vector3.lengthSquared (v : Vector3) : ℝ :=
  v.X * v.X + v.Y * v.Y + v.Z * v.Z

/-- Vector3.Magnitude: square root of the squared length. -/
def Vector3.magnitude (v : Vector3) : ℝ :=
  Real.sqrt v.lengthSquared

/-- Vector3.Normalize: returns the unit-length copy when the magnitude
is positive, and the zero vector otherwise (log.go lines 242-249). -/
def Vector3.normalize (v : Vector3) : Vector3 :=
  let n := v.magnitude
  if n > 0 then ⟨v.X / n, v.Y / n, v.Z / n⟩ else ⟨0, 0, 0⟩

/-- physics.Particle: kinematic state, damping, inverse mass and the
per-frame force accumulator. -/
structure Particle where
  Position : Vector3
  Velocity : Vector3
  Acceleration : Vector3
  Damping : ℝ
  inverseMass : ℝ
  forceAccumulator : Vector3

/-- Particle.HasFiniteMass: inverseMass > 0. -/
def Particle.hasFiniteMass (p : Particle) : Prop :=
  p.inverseMass > 0

instance (p : Particle) : Decidable p.hasFiniteMass := by
  unfold Particle.hasFiniteMass; infer_instance

/-- Particle.Mass: 1/inverseMass, or the positive infinity sentinel
math.Inf(1) (modelled as the top element of EReal) when
inverseMass == 0. -/
def Particle.mass (p : Particle) : EReal :=
  if p.inverseMass = 0 then ⊤ else ((1 / p.inverseMass : ℝ) : EReal)

/-- Particle.KineticEnergy: 0.5 * Mass() * |velocity| * |velocity|,
with the multiplications in the left-to-right order of the source. -/
def Particle.kineticEnergy (p : Particle) : EReal :=
  ((0.5 : ℝ) : EReal) * p.mass * ((p.Velocity.magnitude : ℝ) : EReal)
    * ((p.Velocity.magnitude : ℝ) : EReal)

/-- Particle.AddForce: accumulate force into forceAccumulator. -/
def Particle.addForce (p : Particle) (force : Vector3) : Particle :=
  { p with forceAccumulator := p.forceAccumulator.addCopy force }

/-- Particle.ClearForces: reset the accumulator to the zero vector. -/
def Particle.clearForces (p : Particle) : Particle :=
  { p with forceAccumulator := Vector3.zero }

/-- Particle.Integrate (particle.go lines 116-150).  The Go method
mutates the receiver and returns an error value; here it returns the
particle state after the call together with the optional error.  The
error guards run before any mutation, so the error branches return the
particle unchanged, exactly as the source does.  The damping factor
math.Pow(Damping, duration) is real exponentiation (Real.rpow). -/
def Particle.integrate (p : Particle) (duration : ℝ) :
    Particle × Option PhysicsErr :=
  if p.inverseMass ≤ 0 then (p, some .infiniteMass)
  else if duration ≤ 0 then (p, some .nonPositiveDuration)
  else
    let position := p.Position.scaleAdd p.Velocity duration
    let resultingAcceleration :=
      p.Acceleration.scaleAdd p.forceAccumulator p.inverseMass
    let velocity :=
      (p.Velocity.scaleAdd resultingAcceleration duration).scale
        (p.Damping ^ duration)
    ({ p with
        Position := position
        Velocity := velocity
        forceAccumulator := Vector3.zero }, none)

/-- physics.GravityGenerator. -/
structure GravityGenerator where
  Gravity : Vector3

/-- GravityGenerator.UpdateForce: skip infinite-mass particles,
otherwise add Gravity.ScaleCopy(particle.Mass()).  On the path taken
the mass is the finite real 1/inverseMass, read back from the EReal
model with toReal. -/
def GravityGenerator.updateForce (g : GravityGenerator) (p : Particle) :
    Particle :=
  if ¬ p.hasFiniteMass then p
  else p.addForce (g.Gravity.scaleCopy p.mass.toReal)

/-- physics.DragGenerator with its two drag coefficients. -/
structure DragGenerator where
  K1 : ℝ
  K2 : ℝ

/-- DragGenerator.UpdateForce (pfgen.go): dragCoeff is the magnitude of
the velocity, then K1*dragCoeff + K2*dragCoeff; the force added is the
normalized velocity scaled by that coefficient. -/
def DragGenerator.updateForce (d : DragGenerator) (p : Particle) :
    Particle :=
  let force := p.Velocity
  let dragCoeff := force.magnitude
  let dragCoeff := d.K1 * dragCoeff + d.K2 * dragCoeff
  let force := force.normalize
  let force := force.scaleCopy dragCoeff
  p.addForce force

/-- physics.UpliftForceGenerator: center, radius and force magnitude on
the X-Z plane. -/
structure UpliftForceGenerator where
  Center : Vector3
  Radius : ℝ
  Force : ℝ

/-- UpliftForceGenerator.calcDistance: distance between particle and
center using only the X and Z coordinates. -/
def UpliftForceGenerator.calcDistance (u : UpliftForceGenerator)
    (p : Particle) : ℝ :=
  let dx := p.Position.X - u.Center.X
  let dz := p.Position.Z - u.Center.Z
  Real.sqrt (dx * dx + dz * dz)

/-- UpliftForceGenerator.UpdateForce: when the horizontal distance is
within the radius, add the upward vector (0, Force*(1 - d/Radius), 0);
otherwise leave the particle alone. -/
def UpliftForceGenerator.updateForce (u : UpliftForceGenerator)
    (p : Particle) : Particle :=
  let distance := u.calcDistance p
  if distance ≤ u.Radius then
    let forceMag := u.Force * (1 - distance / u.Radius)
    p.addForce (NewVector3 0 forceMag 0)
  else p

end

/-- physics.registry: one force-generator/particle registration.
Go compares both by pointer identity; references are modelled as
numeric identifiers. -/
structure Registration where
  particle : ℕ
  fg : ℕ
deriving DecidableEq

/-- physics.ForceRegistry: the slice of registrations. -/
structure ForceRegistry where
  registrations : List Registration
deriving DecidableEq

/-- The loop body of ForceRegistry.RemoveForce together with the
removeCopy helper: scan the slice in order and delete the first
registration whose particle and generator both match, returning after
that single removal. -/
def removeFirst : List Registration → ℕ → ℕ → List Registration
  | [], _, _ => []
  | reg :: rest, particle, fg =>
    if reg.particle = particle ∧ reg.fg = fg then rest
    else reg :: removeFirst rest particle fg

/-- ForceRegistry.RemoveForce (pfgen.go lines 66-73). -/
def ForceRegistry.removeForce (r : ForceRegistry) (particle fg : ℕ) :
    ForceRegistry :=
  ⟨removeFirst r.registrations particle fg⟩

/-- Claim C1: for a particle with positive inverse mass and a positive
duration, Integrate succeeds and, in order, advances the position by
the pre-update velocity times the duration, then advances the velocity
by (acceleration + forceAccumulator * inverseMass) * duration, then
scales the velocity by damping ^ duration, and finally resets the
force accumulator to the zero vector. -/
theorem integrate_ok (p : Particle) (d : ℝ)
    (hm : 0 < p.inverseMass) (hd : 0 < d) :
    p.integrate d =
      ({ p with
          Position := p.Position.addCopy (p.Velocity.scaleCopy d)
          Velocity :=
            (p.Velocity.addCopy
              ((p.Acceleration.addCopy
                (p.forceAccumulator.scaleCopy p.inverseMass)).scaleCopy
                  d)).scaleCopy (p.Damping ^ d)
          forceAccumulator := Vector3.zero }, none) := by
  unfold Particle.integrate
  rw [if_neg (not_le.mpr hm), if_neg (not_le.mpr hd)]
  simp only [Vector3.scaleAdd, Vector3.scale, Vector3.addCopy,
    Vector3.scaleCopy]

/-- Witness for C1 at a concrete particle and duration 1. -/
theorem integrate_ok_witness :
    (0 : ℝ) < 1 ∧
    Particle.integrate ⟨⟨0, 0, 0⟩, ⟨1, 0, 0⟩, ⟨0, 0, 0⟩, 1, 1, ⟨0, 0, 0⟩⟩ 1 =
      (⟨⟨1, 0, 0⟩, ⟨1, 0, 0⟩, ⟨0, 0, 0⟩, 1, 1, ⟨0, 0, 0⟩⟩, none) := by
  refine ⟨one_pos, ?_⟩
  have h := integrate_ok ⟨⟨0, 0, 0⟩, ⟨1, 0, 0⟩, ⟨0, 0, 0⟩, 1, 1, ⟨0, 0, 0⟩⟩ 1
    one_pos one_pos
  norm_num [Vector3.addCopy, Vector3.scaleCopy, Vector3.zero,
    Real.rpow_one] at h
  exact h

/-- Claim C2: Integrate returns an error exactly when the inverse mass
is nonpositive or the duration is nonpositive; the infinite-mass guard
is checked first, and in all other cases the call succeeds. -/
theorem integrate_error_iff (p : Particle) (d : ℝ) :
    ((p.integrate d).2 ≠ none ↔ p.inverseMass ≤ 0 ∨ d ≤ 0) ∧
    (p.inverseMass ≤ 0 →
      (p.integrate d).2 = some PhysicsErr.infiniteMass) ∧
    (0 < p.inverseMass → d ≤ 0 →
      (p.integrate d).2 = some PhysicsErr.nonPositiveDuration) ∧
    (0 < p.inverseMass → 0 < d → (p.integrate d).2 = none) := by
  by_cases hm : p.inverseMass ≤ 0
  · refine ⟨?_, fun _ => ?_, fun h _ => absurd hm (not_le.mpr h),
      fun h _ => absurd hm (not_le.mpr h)⟩ <;>
      simp [Particle.integrate, hm]
  · by_cases hd : d ≤ 0
    · refine ⟨?_, fun h => absurd h hm, fun _ _ => ?_,
        fun _ h => absurd hd (not_le.mpr h)⟩ <;>
        simp [Particle.integrate, hm, hd]
    · refine ⟨?_, fun h => absurd h hm, fun _ h => absurd h hd,
        fun _ _ => ?_⟩ <;>
        simp [Particle.integrate, hm, hd]

/-- Witness for C2 at an infinite-mass particle and at a finite-mass
particle with a negative duration. -/
theorem integrate_error_iff_witness :
    (Particle.integrate
        ⟨⟨0, 0, 0⟩, ⟨0, 0, 0⟩, ⟨0, 0, 0⟩, 1, 0, ⟨0, 0, 0⟩⟩ 1).2 =
      some PhysicsErr.infiniteMass ∧
    (Particle.integrate
        ⟨⟨0, 0, 0⟩, ⟨0, 0, 0⟩, ⟨0, 0, 0⟩, 1, 1, ⟨0, 0, 0⟩⟩ (-1)).2 =
      some PhysicsErr.nonPositiveDuration :=
  ⟨(integrate_error_iff _ 1).2.1 le_rfl,
   (integrate_error_iff _ (-1)).2.2.1 one_pos (by norm_num)⟩

/-- Claim C3: whenever Integrate returns an error, the particle state
after the call is exactly the state before it, with the force
accumulator left un-cleared. -/
theorem integrate_error_unchanged (p : Particle) (d : ℝ)
    (h : (p.integrate d).2 ≠ none) : (p.integrate d).1 = p := by
  unfold Particle.integrate at *
  split_ifs at * <;> first | rfl | simp at h

/-- Witness for C3: a failed call on an infinite-mass particle with a
nonzero force accumulator leaves every field, the accumulator
included, as it was. -/
theorem integrate_error_unchanged_witness :
    (Particle.integrate
        ⟨⟨1, 2, 3⟩, ⟨4, 5, 6⟩, ⟨7, 8, 9⟩, 1, 0, ⟨1, 1, 1⟩⟩ 1).1 =
      ⟨⟨1, 2, 3⟩, ⟨4, 5, 6⟩, ⟨7, 8, 9⟩, 1, 0, ⟨1, 1, 1⟩⟩ :=
  integrate_error_unchanged _ 1 (by simp [Particle.integrate])

/-- Claim C7 counterexample: Integrate with duration exactly 0 on a
finite-mass particle does not succeed; the guard is duration <= 0, so
it returns the non-positive-duration error. -/
theorem integrate_zero_duration_errors :
    (Particle.integrate
        ⟨⟨0, 0, 0⟩, ⟨0, 0, 0⟩, ⟨0, 0, 0⟩, 1, 1, ⟨0, 0, 0⟩⟩ 0).2 =
      some PhysicsErr.nonPositiveDuration := by
  norm_num [Particle.integrate]

/-- Claim C7 amended: for every finite-mass particle, Integrate with
duration exactly 0 fails with the non-positive-duration error and
leaves the particle unchanged; duration 0 is rejected, not a no-op. -/
theorem integrate_zero_duration (p : Particle) (hm : 0 < p.inverseMass) :
    p.integrate 0 = (p, some PhysicsErr.nonPositiveDuration) := by
  unfold Particle.integrate
  rw [if_neg (not_le.mpr hm), if_pos le_rfl]

/-- Witness for the amended C7 at a concrete finite-mass particle. -/
theorem integrate_zero_duration_witness :
    Particle.integrate
        ⟨⟨1, 0, 0⟩, ⟨0, 1, 0⟩, ⟨0, 0, 0⟩, 1, 1, ⟨2, 0, 0⟩⟩ 0 =
      (⟨⟨1, 0, 0⟩, ⟨0, 1, 0⟩, ⟨0, 0, 0⟩, 1, 1, ⟨2, 0, 0⟩⟩,
        some PhysicsErr.nonPositiveDuration) :=
  integrate_zero_duration _ (by norm_num)

/-- Claim C4: the drag generator adds to the force accumulator the
normalized velocity scaled by K1*|v| + K2*|v|; both coefficient terms
are linear in the speed, and the force points along the velocity
direction, not against it. -/
theorem drag_updateForce_spec (d : DragGenerator) (p : Particle) :
    d.updateForce p =
      { p with forceAccumulator := p.forceAccumulator.addCopy ((p.Velocity.normalize).scaleCopy (d.K1 * p.Velocity.magnitude + d.K2 * p.Velocity.magnitude)) } :=
  rfl

/-- Claim C10: with a zero velocity, Normalize returns the zero vector
(no division happens), so the drag generator adds the zero vector and
the particle, its force accumulator included, is unchanged. -/
theorem drag_zero_velocity_spec (d : DragGenerator) (p : Particle)
    (h : p.Velocity = ⟨0, 0, 0⟩) :
    Vector3.normalize ⟨0, 0, 0⟩ = ⟨0, 0, 0⟩ ∧ d.updateForce p = p := by
  have hnorm : Vector3.normalize ⟨0, 0, 0⟩ = ⟨0, 0, 0⟩ := by
    norm_num [Vector3.normalize, Vector3.magnitude, Vector3.lengthSquared,
      Real.sqrt_zero]
  obtain ⟨pos, vel, acc, damp, im, ⟨fx, fy, fz⟩⟩ := p
  cases h
  refine ⟨hnorm, ?_⟩
  simp [DragGenerator.updateForce, Particle.addForce, hnorm,
    Vector3.scaleCopy, Vector3.addCopy]

/-- Witness for C10 at a concrete particle with zero velocity and a
nonzero accumulated force. -/
theorem drag_zero_velocity_witness :
    DragGenerator.updateForce ⟨1, 2⟩
        ⟨⟨5, 0, 0⟩, ⟨0, 0, 0⟩, ⟨0, 0, 0⟩, 1, 1, ⟨3, 0, 0⟩⟩ =
      ⟨⟨5, 0, 0⟩, ⟨0, 0, 0⟩, ⟨0, 0, 0⟩, 1, 1, ⟨3, 0, 0⟩⟩ :=
  (drag_zero_velocity_spec ⟨1, 2⟩ _ rfl).2

/-- Claim C6: gravity adds Gravity scaled by the mass 1/inverseMass to
the accumulator of a finite-mass particle, and leaves an infinite-mass
particle (inverseMass = 0) unchanged. -/
theorem gravity_updateForce_spec (g : GravityGenerator) (p : Particle) :
    (0 < p.inverseMass →
      g.updateForce p =
        { p with forceAccumulator := p.forceAccumulator.addCopy (g.Gravity.scaleCopy (1 / p.inverseMass)) }) ∧
    (p.inverseMass = 0 → g.updateForce p = p) := by
  constructor
  · intro h
    unfold GravityGenerator.updateForce Particle.hasFiniteMass
    rw [if_neg (not_not_intro h)]
    unfold Particle.addForce Particle.mass
    rw [if_neg (ne_of_gt h), EReal.toReal_coe]
  · intro h0
    unfold GravityGenerator.updateForce Particle.hasFiniteMass
    rw [if_pos]
    simp [h0]

/-- Witness for C6: a particle of mass 2 (inverse mass 1/2) under
gravity (0, -10, 0) receives (0, -20, 0); an infinite-mass particle is
untouched. -/
theorem gravity_updateForce_witness :
    GravityGenerator.updateForce ⟨⟨0, -10, 0⟩⟩
        ⟨⟨0, 0, 0⟩, ⟨0, 0, 0⟩, ⟨0, 0, 0⟩, 1, 1 / 2, ⟨0, 0, 0⟩⟩ =
      ⟨⟨0, 0, 0⟩, ⟨0, 0, 0⟩, ⟨0, 0, 0⟩, 1, 1 / 2, ⟨0, -20, 0⟩⟩ ∧
    GravityGenerator.updateForce ⟨⟨0, -10, 0⟩⟩
        ⟨⟨0, 0, 0⟩, ⟨0, 0, 0⟩, ⟨0, 0, 0⟩, 1, 0, ⟨0, 0, 0⟩⟩ =
      ⟨⟨0, 0, 0⟩, ⟨0, 0, 0⟩, ⟨0, 0, 0⟩, 1, 0, ⟨0, 0, 0⟩⟩ := by
  constructor
  · have h := (gravity_updateForce_spec ⟨⟨0, -10, 0⟩⟩
      ⟨⟨0, 0, 0⟩, ⟨0, 0, 0⟩, ⟨0, 0, 0⟩, 1, 1 / 2, ⟨0, 0, 0⟩⟩).1 (by norm_num)
    norm_num [Vector3.addCopy, Vector3.scaleCopy] at h
    exact h
  · exact (gravity_updateForce_spec ⟨⟨0, -10, 0⟩⟩
      ⟨⟨0, 0, 0⟩, ⟨0, 0, 0⟩, ⟨0, 0, 0⟩, 1, 0, ⟨0, 0, 0⟩⟩).2 rfl

/-- Claim C5: with a positive configured radius, the uplift generator
adds (0, Force * (1 - d/Radius), 0) when the horizontal distance d to
the center is within the radius, and contributes nothing to the
accumulator when d is at or beyond the radius. -/
theorem uplift_updateForce_spec (u : UpliftForceGenerator) (p : Particle)
    (hr : 0 < u.Radius) :
    (u.calcDistance p ≤ u.Radius →
      u.updateForce p =
        { p with forceAccumulator := p.forceAccumulator.addCopy ⟨0, u.Force * (1 - u.calcDistance p / u.Radius), 0⟩ }) ∧
    (u.Radius ≤ u.calcDistance p → u.updateForce p = p) := by
  constructor
  · intro hle
    unfold UpliftForceGenerator.updateForce Particle.addForce NewVector3
    rw [if_pos hle]
  · intro hge
    rcases eq_or_lt_of_le hge with heq | hlt
    · unfold UpliftForceGenerator.updateForce Particle.addForce NewVector3
      rw [if_pos (le_of_eq heq.symm), ← heq,
        div_self (ne_of_gt hr)]
      simp [Vector3.addCopy]
    · unfold UpliftForceGenerator.updateForce
      rw [if_neg (not_le.mpr hlt)]

/-- Witness for C5: center (0,0,0), radius 10, force 5, particle at
(3,0,4), horizontal distance 5: the accumulator gains (0, 2.5, 0). -/
theorem uplift_updateForce_witness :
    (0 : ℝ) < 10 ∧
    UpliftForceGenerator.updateForce ⟨⟨0, 0, 0⟩, 10, 5⟩
        ⟨⟨3, 0, 4⟩, ⟨0, 0, 0⟩, ⟨0, 0, 0⟩, 1, 1, ⟨0, 0, 0⟩⟩ =
      ⟨⟨3, 0, 4⟩, ⟨0, 0, 0⟩, ⟨0, 0, 0⟩, 1, 1, ⟨0, 2.5, 0⟩⟩ := by
  refine ⟨by norm_num, ?_⟩
  have hdist : UpliftForceGenerator.calcDistance ⟨⟨0, 0, 0⟩, 10, 5⟩
      ⟨⟨3, 0, 4⟩, ⟨0, 0, 0⟩, ⟨0, 0, 0⟩, 1, 1, ⟨0, 0, 0⟩⟩ = 5 := by
    show Real.sqrt (((3 : ℝ) - 0) * ((3 : ℝ) - 0) +
      ((4 : ℝ) - 0) * ((4 : ℝ) - 0)) = 5
    rw [show ((3 : ℝ) - 0) * ((3 : ℝ) - 0) + ((4 : ℝ) - 0) * ((4 : ℝ) - 0)
        = (5 : ℝ) ^ 2 by norm_num]
    exact Real.sqrt_sq (by norm_num)
  have h := (uplift_updateForce_spec ⟨⟨0, 0, 0⟩, 10, 5⟩
    ⟨⟨3, 0, 4⟩, ⟨0, 0, 0⟩, ⟨0, 0, 0⟩, 1, 1, ⟨0, 0, 0⟩⟩ (by norm_num)).1
    (by rw [hdist]; norm_num)
  rw [h, hdist]
  norm_num [Vector3.addCopy]

/-- A vector that is not the zero literal has positive squared
length. -/
theorem Vector3.lengthSquared_pos (v : Vector3)
    (h : v ≠ ⟨0, 0, 0⟩) : 0 < v.lengthSquared := by
  obtain ⟨x, y, z⟩ := v
  unfold Vector3.lengthSquared
  rcases lt_or_eq_of_le (by nlinarith [mul_self_nonneg x, mul_self_nonneg y, mul_self_nonneg z] : (0 : ℝ) ≤ x * x + y * y + z * z) with hp | hz
  · exact hp
  · exfalso
    apply h
    have hx : x = 0 := by nlinarith [mul_self_nonneg x, mul_self_nonneg y, mul_self_nonneg z]
    have hy : y = 0 := by nlinarith [mul_self_nonneg x, mul_self_nonneg y, mul_self_nonneg z]
    have hz2 : z = 0 := by nlinarith [mul_self_nonneg x, mul_self_nonneg y, mul_self_nonneg z]
    simp [hx, hy, hz2]

/-- KineticEnergy on an infinite-mass particle with nonzero velocity is
the positive-infinity sentinel. -/
theorem kineticEnergy_eq_top (p : Particle) (h0 : p.inverseMass = 0)
    (hv : p.Velocity ≠ ⟨0, 0, 0⟩) : p.kineticEnergy = ⊤ := by
  have hmag : 0 < p.Velocity.magnitude :=
    Real.sqrt_pos.mpr (Vector3.lengthSquared_pos p.Velocity hv)
  unfold Particle.kineticEnergy Particle.mass
  rw [if_pos h0]
  rw [EReal.coe_mul_top_of_pos (by norm_num)]
  rw [EReal.top_mul_of_pos (EReal.coe_pos.mpr hmag)]
  rw [EReal.top_mul_of_pos (EReal.coe_pos.mpr hmag)]

/-- Claim C8 counterexample: an infinite-mass particle with velocity
(1,0,0) has KineticEnergy equal to the infinite sentinel, which is not
zero, so the returned value is not "effectively zero". -/
theorem kineticEnergy_infinite_counterexample :
    Particle.kineticEnergy
        ⟨⟨0, 0, 0⟩, ⟨1, 0, 0⟩, ⟨0, 0, 0⟩, 1, 0, ⟨0, 0, 0⟩⟩ = ⊤ ∧
    (⊤ : EReal) ≠ 0 :=
  ⟨kineticEnergy_eq_top _ rfl (by simp), by simp⟩

/-- Claim C8 amended: KineticEnergy is 0.5 * Mass() * |velocity|^2 for
every particle; for a finite-mass particle that is the real number
0.5 * (1/inverseMass) * |velocity|^2, while for an infinite-mass
particle with nonzero velocity it is the positive-infinity sentinel,
not zero, so callers must treat infinite mass specially. -/
theorem kineticEnergy_spec (p : Particle) :
    (0 < p.inverseMass →
      p.kineticEnergy =
        ((0.5 * (1 / p.inverseMass) * p.Velocity.magnitude ^ 2 : ℝ) : EReal)) ∧
    (p.inverseMass = 0 → p.Velocity ≠ ⟨0, 0, 0⟩ → p.kineticEnergy = ⊤) := by
  constructor
  · intro h
    unfold Particle.kineticEnergy Particle.mass
    rw [if_neg (ne_of_gt h)]
    rw [← EReal.coe_mul, ← EReal.coe_mul, ← EReal.coe_mul,
      EReal.coe_eq_coe_iff]
    ring
  · exact fun h0 hv => kineticEnergy_eq_top p h0 hv

/-- Witness for C8 amended: a mass-1 particle with velocity (1,0,0)
has kinetic energy 0.5, and an infinite-mass particle with velocity
(0,3,0) has the infinite sentinel. -/
theorem kineticEnergy_spec_witness :
    Particle.kineticEnergy
        ⟨⟨0, 0, 0⟩, ⟨1, 0, 0⟩, ⟨0, 0, 0⟩, 1, 1, ⟨0, 0, 0⟩⟩ =
      ((0.5 : ℝ) : EReal) ∧
    Particle.kineticEnergy
        ⟨⟨0, 0, 0⟩, ⟨0, 3, 0⟩, ⟨0, 0, 0⟩, 1, 0, ⟨0, 0, 0⟩⟩ = ⊤ := by
  constructor
  · have h := (kineticEnergy_spec
      ⟨⟨0, 0, 0⟩, ⟨1, 0, 0⟩, ⟨0, 0, 0⟩, 1, 1, ⟨0, 0, 0⟩⟩).1 (by norm_num)
    rw [h]
    norm_num [Vector3.magnitude, Vector3.lengthSquared, Real.sqrt_one]
  · exact (kineticEnergy_spec
      ⟨⟨0, 0, 0⟩, ⟨0, 3, 0⟩, ⟨0, 0, 0⟩, 1, 0, ⟨0, 0, 0⟩⟩).2 rfl (by simp)

/-- Claim C9: RemoveForce deletes exactly the first registration whose
particle and generator identities both match, keeping every other
registration in its original relative order, and is the identity when
no registration matches. -/
theorem removeForce_spec (particle fg : ℕ) :
    (∀ r : ForceRegistry,
        (∀ reg ∈ r.registrations, ¬(reg.particle = particle ∧ reg.fg = fg)) →
        r.removeForce particle fg = r) ∧
    (∀ (l1 l2 : List Registration) (reg : Registration),
        (∀ reg2 ∈ l1, ¬(reg2.particle = particle ∧ reg2.fg = fg)) →
        reg.particle = particle → reg.fg = fg →
        ForceRegistry.removeForce ⟨l1 ++ reg :: l2⟩ particle fg =
          ⟨l1 ++ l2⟩) := by
  have key : ∀ l : List Registration,
      (∀ reg ∈ l, ¬(reg.particle = particle ∧ reg.fg = fg)) →
      removeFirst l particle fg = l := by
    intro l
    induction l with
    | nil => intro _; rfl
    | cons a t ih =>
      intro h
      unfold removeFirst
      rw [if_neg (h a (List.mem_cons_self a t)),
        ih (fun r hr => h r (List.mem_cons_of_mem a hr))]
  have key2 : ∀ (l1 l2 : List Registration) (reg : Registration),
      (∀ reg2 ∈ l1, ¬(reg2.particle = particle ∧ reg2.fg = fg)) →
      reg.particle = particle → reg.fg = fg →
      removeFirst (l1 ++ reg :: l2) particle fg = l1 ++ l2 := by
    intro l1 l2 reg
    induction l1 with
    | nil =>
      intro _ hp hg
      simp [removeFirst, hp, hg]
    | cons a t ih =>
      intro h hp hg
      have ha := h a (List.mem_cons_self a t)
      simp only [List.cons_append]
      unfold removeFirst
      rw [if_neg ha, ih (fun r hr => h r (List.mem_cons_of_mem a hr)) hp hg]
  constructor
  · intro r h
    obtain ⟨regs⟩ := r
    unfold ForceRegistry.removeForce
    rw [key regs h]
  · intro l1 l2 reg h hp hg
    unfold ForceRegistry.removeForce
    rw [key2 l1 l2 reg h hp hg]

/-- Witness for C9: removing (2,2) from a four-entry registry deletes
only the first of the two matching registrations and keeps the order
of the rest; the untouched prefix has no match. -/
theorem removeForce_spec_witness :
    (∀ reg2 ∈ ([⟨1, 1⟩] : List Registration),
        ¬(reg2.particle = 2 ∧ reg2.fg = 2)) ∧
    ForceRegistry.removeForce ⟨[⟨1, 1⟩, ⟨2, 2⟩, ⟨2, 2⟩, ⟨3, 3⟩]⟩ 2 2 =
      ⟨[⟨1, 1⟩, ⟨2, 2⟩, ⟨3, 3⟩]⟩ :=
  ⟨by decide,
   (removeForce_spec 2 2).2 [⟨1, 1⟩] [⟨2, 2⟩, ⟨3, 3⟩] ⟨2, 2⟩
     (by decide) rfl rfl⟩

end Cyclone
